import Mathlib

/-!
Verification development for the sci16z repository.

Part 1 models the Task Pool coordination core. The repository ships only the
dashboard/proxy web code; the Task Pool itself is described by the project
documentation (data model, component design §3–§4, concurrency contract §5),
so every definition in the `TaskPool` namespace is modelled from that
documentation. The concurrency contract demands that `acquire`, `release`
(result submission) and the expiry sweep be atomic per task/lease; we model
each such operation as one atomic transition of a step relation, so that an
arbitrary interleaving of concurrent calls is exactly a path of the relation.

Part 2 (`Web` namespace) is a shallow embedding of the shipped JavaScript:
`src/utils/apiClient.js` and the route handlers in `src/routes/api.js` and
`src/routes/dashboard.js`. HTTP is represented by an oracle from requests to
axios-style responses; each client method also returns the trace of GET
requests it issues.
-/

namespace TaskPool

/-- Modelled from the spec: task states
`state ∈ {Pending, Leased, Completed, Failed, Abandoned}` (§3 Data Model). -/
inductive TaskState
  | Pending
  | Leased
  | Completed
  | Failed
  | Abandoned
deriving DecidableEq, Repr

/-- Modelled from the spec: a Task record (§3). `payload_ref` is an opaque
reference (the core never inspects content), represented by a `Nat`. -/
structure Task where
  id : Nat
  payload_ref : Nat
  priority : Nat
  state : TaskState
  attempt_count : Nat
  created_at : Nat
deriving DecidableEq, Repr

/-- Modelled from the spec: a Lease record (§3): `task_id`, `node_id`,
`issued_at`, `expires_at`, `token` (opaque capability, represented by a
`Nat`; tokens are issued freshly per acquisition). -/
structure Lease where
  task_id : Nat
  node_id : Nat
  issued_at : Nat
  expires_at : Nat
  token : Nat
deriving DecidableEq, Repr

/-- Modelled from the spec: result outcome `Success(payload) | Failure(reason)`
(§3), payload/reason opaque. -/
inductive Outcome
  | success (payload : Nat)
  | failure (reason : Nat)
deriving DecidableEq, Repr

/-- Modelled from the spec: the error taxonomy of §7 that the modelled
operations use. -/
inductive PoolError
  | QueueFull
  | TaskNotAvailable
  | LeaseExpired
  | UnknownNode
  | InvalidTransition
deriving DecidableEq, Repr

/-- Modelled from the spec: result-submission acknowledgement; stale and
duplicate submissions are acknowledged with `AlreadyFinalized` (§4.4, §7). -/
inductive Ack
  | Ok
  | AlreadyFinalized
deriving DecidableEq, Repr

/-- Modelled from the spec: configuration knobs — queue capacity
(`TASK_QUEUE_SIZE`, 500 in `.env.example`) and the retry maximum
(`RETRY_ATTEMPTS`). -/
structure Config where
  capacity : Nat
  maxAttempts : Nat
deriving DecidableEq, Repr

/-- Modelled from the spec: the shared state of the Task Pool core — the task
queue, the live lease table, the clock, and fresh-id counters for tasks and
lease tokens. -/
structure PoolState where
  tasks : List Task
  leases : List Lease
  now : Nat
  nextId : Nat
  nextToken : Nat
deriving DecidableEq, Repr

/-- The empty initial state. -/
def initState : PoolState :=
  { tasks := [], leases := [], now := 0, nextId := 0, nextToken := 0 }

/-- Modelled from the spec: queue depth — the number of tasks still owned by
the queue, i.e. not yet terminal (§3: a task is owned by the Task Queue until
Completed/Abandoned; §8 scenario: completing a task frees a slot). -/
def queueDepth (s : PoolState) : Nat :=
  (s.tasks.filter fun t => t.state == TaskState.Pending || t.state == TaskState.Leased).length

/-- Modelled from the spec: `submit(payload_ref, priority) -> task_id` (§4.2):
creates a task in Pending; fails with `QueueFull` when the queue is at
capacity (admitting the task would push the depth past the configured
capacity). -/
def submit (cfg : Config) (s : PoolState) (payload priority : Nat) :
    Except PoolError (PoolState × Nat) :=
  if cfg.capacity ≤ queueDepth s then
    .error .QueueFull
  else
    .ok ({ s with
            tasks := s.tasks ++ [{ id := s.nextId, payload_ref := payload,
                                   priority := priority, state := .Pending,
                                   attempt_count := 0, created_at := s.now }],
            nextId := s.nextId + 1 },
         s.nextId)

/-- Modelled from the spec: the selection preorder of `peek_next` (§4.2) — a
task is preferred when it has strictly higher priority, or equal priority and
an earlier-or-equal `created_at` (FIFO within a priority band). -/
def prefOver (a b : Task) : Bool :=
  b.priority < a.priority || (a.priority == b.priority && a.created_at ≤ b.created_at)

/-- Modelled from the spec: `peek_next -> task_id or None` (§4.2): selects the
highest-priority Pending task, tie-break by earliest `created_at`; `none` when
no Pending task exists — it never blocks. (Capability-based node eligibility
filtering is out of scope of the claims and omitted.) -/
def peekNext (s : PoolState) : Option Nat :=
  match s.tasks.filter (fun t => t.state == TaskState.Pending) with
  | [] => none
  | t :: ts => some (ts.foldl (fun acc u => if prefOver acc u then acc else u) t).id

/-- Look a task up by id. -/
def findTask (s : PoolState) (tid : Nat) : Option Task :=
  s.tasks.find? fun t => t.id == tid

/-- Modelled from the spec: `acquire(task_id, node_id, ttl) -> lease_token`
(§4.3): atomically transitions the task Pending→Leased, increments
`attempt_count`, records a fresh lease, and returns its token; fails with
`TaskNotAvailable` when the task is not Pending at acquisition time (only one
of two racing callers wins). The per-task update is guarded by the task's own
Pending state, mirroring the atomic compare-and-set the concurrency contract
(§5) requires. -/
def acquire (cfg : Config) (s : PoolState) (tid nid ttl : Nat) :
    Except PoolError (PoolState × Nat) :=
  match findTask s tid with
  | none => .error .TaskNotAvailable
  | some t =>
    if t.state = .Pending then
      .ok ({ s with
              tasks := s.tasks.map fun u =>
                if u.id == tid && u.state == TaskState.Pending then
                  { u with state := .Leased, attempt_count := u.attempt_count + 1 }
                else u,
              leases := s.leases ++ [{ task_id := tid, node_id := nid,
                                       issued_at := s.now,
                                       expires_at := s.now + ttl,
                                       token := s.nextToken }],
              nextToken := s.nextToken + 1 },
           s.nextToken)
    else .error .TaskNotAvailable

/-- Modelled from the spec: a lease is live while `now < expires_at` and its
task is still in state Leased (§3). -/
def isLive (s : PoolState) (l : Lease) : Bool :=
  decide (s.now < l.expires_at) &&
    (match findTask s l.task_id with
     | some t => t.state == TaskState.Leased
     | none => false)

/-- Modelled from the spec: the retry/abandon path shared by lease expiry and
failure outcomes (§4.2 state machine, §4.3 expiry sweep): a task still Leased
returns to Pending while `attempt_count < max`, and becomes Abandoned once
`attempt_count >= max`; the task's lease is discarded. -/
def requeueOrAbandon (cfg : Config) (s : PoolState) (tid : Nat) : PoolState :=
  { s with
    tasks := s.tasks.map fun u =>
      if u.id == tid && u.state == TaskState.Leased then
        if u.attempt_count < cfg.maxAttempts then { u with state := .Pending }
        else { u with state := .Abandoned }
      else u,
    leases := s.leases.filter fun l => !(l.task_id == tid) }

/-- Modelled from the spec: `submit_result(lease_token, outcome) -> ack`
(§4.4): validates the token against the live lease of its task; on mismatch
(stale, expired, superseded or duplicate) returns `AlreadyFinalized` with no
side effects. On a success outcome the task becomes Completed and the lease is
destroyed; on a failure outcome it behaves as an early release feeding the
retry/abandon path. -/
def submitResult (cfg : Config) (s : PoolState) (token : Nat) (outcome : Outcome) :
    PoolState × Ack :=
  match s.leases.find? (fun l => l.token == token) with
  | none => (s, .AlreadyFinalized)
  | some l =>
    if isLive s l then
      match outcome with
      | .success _ =>
        ({ s with
            tasks := s.tasks.map fun u =>
              if u.id == l.task_id && u.state == TaskState.Leased then
                { u with state := .Completed }
              else u,
            leases := s.leases.filter fun m => !(m.task_id == l.task_id) },
         .Ok)
      | .failure _ => (requeueOrAbandon cfg s l.task_id, .Ok)
    else (s, .AlreadyFinalized)

/-- Modelled from the spec: `renew(lease_token) -> ack` (§4.3): extends
`expires_at`; fails with `LeaseExpired` after expiry. -/
def renew (cfg : Config) (s : PoolState) (token ttl : Nat) :
    Except PoolError PoolState :=
  match s.leases.find? (fun l => l.token == token) with
  | none => .error .LeaseExpired
  | some l =>
    if s.now < l.expires_at then
      .ok { s with
            leases := s.leases.map fun m =>
              if m.token == token then { m with expires_at := s.now + ttl } else m }
    else .error .LeaseExpired

/-- Modelled from the spec: one atomic transition of the Task Pool core. Each
constructor is one of the operations the concurrency contract (§5) requires to
be atomic on a task/lease: task submission, lease acquisition, renewal, result
submission (including its idempotent no-op rejection), the expiry sweep's
per-lease reclamation, and the passage of time. An interleaving of concurrent
calls is a path of this relation. -/
inductive Step (cfg : Config) : PoolState → PoolState → Prop
  | submit (s : PoolState) (payload priority : Nat) (s' : PoolState) (tid : Nat) :
      TaskPool.submit cfg s payload priority = .ok (s', tid) → Step cfg s s'
  | acquire (s : PoolState) (tid nid ttl : Nat) (s' : PoolState) (tok : Nat) :
      TaskPool.acquire cfg s tid nid ttl = .ok (s', tok) → Step cfg s s'
  | renew (s : PoolState) (token ttl : Nat) (s' : PoolState) :
      TaskPool.renew cfg s token ttl = .ok s' → Step cfg s s'
  | submitResult (s : PoolState) (token : Nat) (outcome : Outcome) :
      Step cfg s (TaskPool.submitResult cfg s token outcome).1
  | sweep (s : PoolState) (l : Lease) :
      l ∈ s.leases → l.expires_at ≤ s.now →
      Step cfg s (requeueOrAbandon cfg s l.task_id)
  | tick (s : PoolState) (dt : Nat) :
      Step cfg s { s with now := s.now + dt }

/-- A state is reachable when some interleaving of atomic operations produces
it from the empty initial state. -/
def Reachable (cfg : Config) : PoolState → Prop :=
  Relation.ReflTransGen (Step cfg) initState

end TaskPool

namespace Web

/-- A JavaScript argument value as the routes pass them: absent arguments are
`undefined`, query parameters are strings, literal defaults are numbers. -/
inductive JSValue
  | undefined
  | str (s : String)
  | num (n : Nat)
deriving DecidableEq, Repr

/-- JavaScript default-parameter semantics: the default applies exactly when
the supplied argument is `undefined`. -/
def jsDefault (v d : JSValue) : JSValue :=
  if v = .undefined then d else v

/-- JavaScript string coercion as used by template literals. -/
def jsToString : JSValue → String
  | .undefined => "undefined"
  | .str s => s
  | .num n => toString n

/-- A JSON value, for request/response bodies. -/
inductive Json
  | null
  | bool (b : Bool)
  | num (n : Int)
  | str (s : String)
  | arr (xs : List Json)
  | obj (fields : List (String × Json))

/-- An axios response; `data` is the parsed body
(`response.data` in `apiClient.js`). -/
structure AxiosResponse where
  status : Nat
  data : Json

/-- An error thrown on the JavaScript side: a failed upstream request, or a
`TypeError` such as calling a method that does not exist. -/
inductive JSError
  | axiosError (status : Nat) (message : String)
  | typeError (message : String)

/-- A GET request issued through the axios instance: relative path plus query
parameters (the `params` option). -/
structure GetReq where
  path : String
  params : List (String × JSValue)

/-- The network oracle standing for the axios instance created in
`apiClient.js` (base URL, auth header and timeout are fixed configuration and
not modelled): each GET either yields a response or throws. -/
def Net : Type := GetReq → Except JSError AxiosResponse

/-- Embeds `ApiClient.searchPapers(query, page = 1, limit = 10)`: one GET to
`/papers/search` with params `{query, page, limit}`; returns `response.data`
on success and rethrows the error on failure (the `logger.error` call has no
effect on the result and is not modelled). The first component is the trace of
requests issued. -/
def searchPapers (net : Net) (query page limit : JSValue) :
    List GetReq × Except JSError Json :=
  let req : GetReq :=
    { path := "/papers/search",
      params := [("query", query), ("page", jsDefault page (.num 1)),
                 ("limit", jsDefault limit (.num 10))] }
  ([req],
   match net req with
   | .ok r => .ok r.data
   | .error e => .error e)

/-- Embeds `ApiClient.getLatestPapers(limit = 10)`: one GET to
`/papers/latest` with params `{limit}`. -/
def getLatestPapers (net : Net) (limit : JSValue) :
    List GetReq × Except JSError Json :=
  let req : GetReq := { path := "/papers/latest",
                        params := [("limit", jsDefault limit (.num 10))] }
  ([req],
   match net req with
   | .ok r => .ok r.data
   | .error e => .error e)

/-- Embeds `ApiClient.getNodes()`: one GET to `/nodes`, no params. -/
def getNodes (net : Net) : List GetReq × Except JSError Json :=
  let req : GetReq := { path := "/nodes", params := [] }
  ([req],
   match net req with
   | .ok r => .ok r.data
   | .error e => .error e)

/-- Embeds `ApiClient.getStats()`: one GET to `/stats`, no params. -/
def getStats (net : Net) : List GetReq × Except JSError Json :=
  let req : GetReq := { path := "/stats", params := [] }
  ([req],
   match net req with
   | .ok r => .ok r.data
   | .error e => .error e)

/-- Embeds `ApiClient.getPaperById(id)`: one GET to the template-literal path
`/papers/${id}`, no params. -/
def getPaperById (net : Net) (id : JSValue) : List GetReq × Except JSError Json :=
  let req : GetReq := { path := "/papers/" ++ jsToString id, params := [] }
  ([req],
   match net req with
   | .ok r => .ok r.data
   | .error e => .error e)

/-- An Express response as the API routes produce them: `res.json(body)` is
status 200, `res.status(c).json(body)` is status `c`. -/
inductive ExpressResp
  | json (status : Nat) (body : Json)

/-- Embeds the method table of the `ApiClient` class: property lookup by
method name on the exported `apiClient` instance. Each method is adapted to a
uniform argument list, missing arguments being `undefined` (JavaScript call
semantics). The class defines exactly `searchPapers`, `getLatestPapers`,
`getNodes`, `getStats` and `getPaperById`; any other name is not a method. -/
def apiClientLookup (name : String) :
    Option (Net → List JSValue → List GetReq × Except JSError Json) :=
  if name = "searchPapers" then
    some fun net args =>
      searchPapers net (args.getD 0 .undefined) (args.getD 1 .undefined) (args.getD 2 .undefined)
  else if name = "getLatestPapers" then
    some fun net args => getLatestPapers net (args.getD 0 .undefined)
  else if name = "getNodes" then
    some fun net _ => getNodes net
  else if name = "getStats" then
    some fun net _ => getStats net
  else if name = "getPaperById" then
    some fun net args => getPaperById net (args.getD 0 .undefined)
  else
    none

/-- Embeds the `GET /api/nodes` handler of `src/routes/api.js`: forwards the
upstream value with `res.json`, or answers 500 with
`{ error: 'Failed to fetch nodes' }` when the client call threw. -/
def nodesHandler (upstream : Except JSError Json) : ExpressResp :=
  match upstream with
  | .ok nodes => .json 200 nodes
  | .error _ => .json 500 (.obj [("error", .str ("Failed to fetch nodes"))])

/-- Embeds the `GET /api/stats` handler of `src/routes/api.js`. -/
def statsHandler (upstream : Except JSError Json) : ExpressResp :=
  match upstream with
  | .ok stats => .json 200 stats
  | .error _ => .json 500 (.obj [("error", .str ("Failed to fetch stats"))])

/-- Embeds the `GET /api/papers/latest` handler of `src/routes/api.js`: calls
`apiClient.getLatestPapers(req.query.limit)` and forwards the result; answers
500 on error. The request's query map is a function from parameter name to
value, `undefined` for absent parameters. -/
def papersLatestRoute (net : Net) (query : String → JSValue) :
    List GetReq × ExpressResp :=
  let r := getLatestPapers net (query ("limit"))
  (r.1,
   match r.2 with
   | .ok papers => .json 200 papers
   | .error _ => .json 500 (.obj [("error", .str ("Failed to fetch latest papers"))]))

/-- Embeds the `POST /api/downloads/track` handler of `src/routes/api.js`: it
calls `apiClient.trackDownload(fileId, nodeId)` inside `try`; property lookup
of a missing method yields `undefined`, so the call throws a `TypeError`,
caught by the handler's `catch`. -/
def downloadsTrackRoute (net : Net) (body : String → JSValue) : ExpressResp :=
  match apiClientLookup ("trackDownload") with
  | some m =>
    match (m net [body ("fileId"), body ("nodeId")]).2 with
    | .ok _ => .json 200 (.obj [("success", .bool true)])
    | .error _ => .json 500 (.obj [("error", .str ("Failed to track download"))])
  | none => .json 500 (.obj [("error", .str ("Failed to track download"))])

/-- The `defaultNode` literal of `src/routes/dashboard.js`; decimal literals
are carried in tenths (`uptime: 99.9` as 999, `tokensPerHour: 5.6` as 56) and
`lastSeen: new Date()` is the render-time clock. -/
structure DefaultNode where
  id : String
  status : String
  uptimeTenths : Nat
  papersProcessed : Nat
  tokensPerHourTenths : Nat
  lastSeen : Nat
deriving DecidableEq, Repr

/-- The `defaultNode` object built (identically) on both paths of the
dashboard handler. -/
def mkDefaultNode (now : Nat) : DefaultNode :=
  { id := "node-001", status := "Active", uptimeTenths := 999,
    papersProcessed := 1234, tokensPerHourTenths := 56, lastSeen := now }

/-- A dashboard-route response: either `res.render(view, locals)` with the
locals the handler passes, or an error status sent without rendering (the
handler never produces the latter; the constructor exists so that the type can
express the difference). -/
inductive DashResp
  | render (view : String) (title : String) (nodes : Json) (stats : Json)
      (defaultNode : DefaultNode) (error : Option String)
  | status (code : Nat) (body : Json)

/-- Embeds the `GET /dashboard` handler of `src/routes/dashboard.js`:
`Promise.all` of `getNodes()` and `getStats()`; on success renders the
dashboard view with the fetched data, and on any rejection renders the same
view with `nodes: []`, the zeroed stats object, the same `defaultNode`, and an
error message. -/
def dashboardRoute (now : Nat) (nodesRes statsRes : Except JSError Json) : DashResp :=
  match nodesRes, statsRes with
  | .ok nodes, .ok stats =>
    .render ("dashboard") ("Dashboard - Sci16z") nodes stats (mkDefaultNode now) none
  | _, _ =>
    .render ("dashboard") ("Dashboard - Sci16z") (.arr [])
      (.obj [("activeNodes", .num 1), ("papersProcessed", .num 0),
             ("tokensEarned", .num 0)])
      (mkDefaultNode now) (some ("Failed to load dashboard data"))

/-- Embeds the apiClient interaction of the `GET /search` page route of
`src/routes/dashboard.js` (web router): destructuring `{ q, page = 1 }` from
the query, then `apiClient.searchPapers(q, page)` — the third argument is
omitted. (The render step consumes the result and is independent of the
request issued.) -/
def searchPageCall (net : Net) (query : String → JSValue) :
    List GetReq × Except JSError Json :=
  searchPapers net (query ("q")) (jsDefault (query ("page")) (.num 1)) .undefined

end Web

namespace TaskPool

/-! ### Inversion lemmas for the pool operations -/

lemma submit_ok_inv {cfg : Config} {s : PoolState} {payload priority : Nat}
    {s' : PoolState} {tid : Nat}
    (h : submit cfg s payload priority = .ok (s', tid)) :
    queueDepth s < cfg.capacity ∧
    s' = { s with
            tasks := s.tasks ++ [{ id := s.nextId, payload_ref := payload,
                                   priority := priority, state := .Pending,
                                   attempt_count := 0, created_at := s.now }],
            nextId := s.nextId + 1 } ∧
    tid = s.nextId := by
  unfold submit at h
  split at h
  · cases h
  · next hc =>
    simp only [Except.ok.injEq, Prod.mk.injEq] at h
    exact ⟨Nat.not_le.mp hc, h.1.symm, h.2.symm⟩

lemma acquire_ok_inv {cfg : Config} {s : PoolState} {tid nid ttl : Nat}
    {s' : PoolState} {tok : Nat}
    (h : acquire cfg s tid nid ttl = .ok (s', tok)) :
    ∃ t, findTask s tid = some t ∧ t.state = TaskState.Pending ∧
      s' = { s with
              tasks := s.tasks.map fun u =>
                if u.id == tid && u.state == TaskState.Pending then
                  { u with state := .Leased, attempt_count := u.attempt_count + 1 }
                else u,
              leases := s.leases ++ [{ task_id := tid, node_id := nid,
                                       issued_at := s.now,
                                       expires_at := s.now + ttl,
                                       token := s.nextToken }],
              nextToken := s.nextToken + 1 } := by
  unfold acquire at h
  cases hf : findTask s tid with
  | none => rw [hf] at h; cases h
  | some t =>
    rw [hf] at h
    by_cases hp : t.state = TaskState.Pending
    · simp only [hp, reduceIte, Except.ok.injEq, Prod.mk.injEq] at h
      exact ⟨t, rfl, hp, h.1.symm⟩
    · simp only [hp, reduceIte] at h
      exact Except.noConfusion h

lemma renew_ok_inv {cfg : Config} {s : PoolState} {token ttl : Nat} {s' : PoolState}
    (h : renew cfg s token ttl = .ok s') :
    ∃ l, s.leases.find? (fun m => m.token == token) = some l ∧
      s' = { s with
              leases := s.leases.map fun m =>
                if m.token == token then { m with expires_at := s.now + ttl } else m } := by
  unfold renew at h
  cases hf : s.leases.find? (fun m => m.token == token) with
  | none => rw [hf] at h; cases h
  | some l =>
    rw [hf] at h
    by_cases hlt : s.now < l.expires_at
    · simp only [if_pos hlt, Except.ok.injEq] at h
      exact ⟨l, rfl, h.symm⟩
    · simp only [if_neg hlt] at h
      exact Except.noConfusion h

lemma submitResult_success_eq {cfg : Config} {s : PoolState} {token : Nat}
    {l : Lease} (payload : Nat)
    (hfind : s.leases.find? (fun m => m.token == token) = some l)
    (hlive : isLive s l = true) :
    submitResult cfg s token (.success payload) =
      ({ s with
          tasks := s.tasks.map fun u =>
            if u.id == l.task_id && u.state == TaskState.Leased then
              { u with state := .Completed }
            else u,
          leases := s.leases.filter fun m => !(m.task_id == l.task_id) },
       .Ok) := by
  unfold submitResult
  rw [hfind]
  simp [hlive]

lemma submitResult_state_cases (cfg : Config) (s : PoolState) (token : Nat)
    (outcome : Outcome) :
    (submitResult cfg s token outcome).1 = s ∨
    (∃ l, l ∈ s.leases ∧
      ((submitResult cfg s token outcome).1 =
          { s with
            tasks := s.tasks.map fun u =>
              if u.id == l.task_id && u.state == TaskState.Leased then
                { u with state := .Completed }
              else u,
            leases := s.leases.filter fun m => !(m.task_id == l.task_id) } ∨
       (submitResult cfg s token outcome).1 = requeueOrAbandon cfg s l.task_id)) := by
  unfold submitResult
  cases hf : s.leases.find? (fun m => m.token == token) with
  | none => left; rfl
  | some l =>
    by_cases hl : isLive s l = true
    · right
      refine ⟨l, List.mem_of_find?_eq_some hf, ?_⟩
      cases outcome with
      | success p => left; simp [hl]
      | failure r => right; simp [hl, requeueOrAbandon]
    · left
      simp [Bool.not_eq_true] at hl
      simp [hl]

/-! ### List helpers -/

lemma eq_of_pairwise_ne_id {l : List Task}
    (hl : l.Pairwise fun a b => a.id ≠ b.id)
    {t u : Task} (ht : t ∈ l) (hu : u ∈ l) (hid : t.id = u.id) : t = u := by
  induction l with
  | nil => cases ht
  | cons a l ih =>
    rcases List.pairwise_cons.mp hl with ⟨ha, hl'⟩
    rcases List.mem_cons.mp ht with rfl | ht' <;>
      rcases List.mem_cons.mp hu with rfl | hu'
    · rfl
    · exact absurd hid (ha u hu')
    · exact absurd hid.symm (ha t ht')
    · exact ih hl' ht' hu'

lemma pairwise_ne_id_map {l : List Task} (f : Task → Task)
    (hf : ∀ u, (f u).id = u.id)
    (h : l.Pairwise fun a b => a.id ≠ b.id) :
    (l.map f).Pairwise fun a b => a.id ≠ b.id := by
  rw [List.pairwise_map]
  exact h.imp fun hab => by simpa [hf] using hab

end TaskPool

namespace TaskPool

/-! ### The lease invariant -/

lemma acquire_update_id (tid : Nat) (u : Task) :
    ((if u.id == tid && u.state == TaskState.Pending then
        { u with state := TaskState.Leased, attempt_count := u.attempt_count + 1 }
      else u) : Task).id = u.id := by
  split <;> rfl

lemma requeue_update_id (cfg : Config) (tid : Nat) (u : Task) :
    ((if u.id == tid && u.state == TaskState.Leased then
        if u.attempt_count < cfg.maxAttempts then { u with state := TaskState.Pending }
        else { u with state := TaskState.Abandoned }
      else u) : Task).id = u.id := by
  split
  · split <;> rfl
  · rfl

lemma complete_update_id (tid : Nat) (u : Task) :
    ((if u.id == tid && u.state == TaskState.Leased then
        { u with state := TaskState.Completed }
      else u) : Task).id = u.id := by
  split <;> rfl

lemma renew_update_task_id (token v : Nat) (m : Lease) :
    ((if m.token == token then { m with expires_at := v } else m) : Lease).task_id
      = m.task_id := by
  split <;> rfl

/-- The inductive invariant backing the single-live-lease property: task ids
are distinct and below the fresh-id counter, every recorded lease belongs to a
task that is currently Leased, and no two recorded leases share a task. -/
def LeaseInv (s : PoolState) : Prop :=
  (s.tasks.Pairwise fun a b => a.id ≠ b.id) ∧
  (∀ t ∈ s.tasks, t.id < s.nextId) ∧
  (∀ l ∈ s.leases, ∃ t ∈ s.tasks, t.id = l.task_id ∧ t.state = TaskState.Leased) ∧
  (s.leases.Pairwise fun a b => a.task_id ≠ b.task_id)

lemma leaseInv_init : LeaseInv initState := by
  refine ⟨List.Pairwise.nil, ?_, ?_, List.Pairwise.nil⟩ <;> intro x hx <;> cases hx

lemma leaseInv_requeueOrAbandon {cfg : Config} {s : PoolState} {tid : Nat}
    (hI : LeaseInv s) : LeaseInv (requeueOrAbandon cfg s tid) := by
  obtain ⟨hD, hE, hA, hB⟩ := hI
  refine ⟨?_, ?_, ?_, ?_⟩
  · exact pairwise_ne_id_map _ (requeue_update_id cfg tid) hD
  · intro t ht
    rcases List.mem_map.mp ht with ⟨u, hu, rfl⟩
    rw [requeue_update_id cfg tid u]
    exact hE u hu
  · intro l hl
    have hl' := List.mem_filter.mp hl
    have hne : l.task_id ≠ tid := by simpa using hl'.2
    rcases hA l hl'.1 with ⟨t, ht, hid, hst⟩
    refine ⟨t, List.mem_map.mpr ⟨t, ht, ?_⟩, hid, hst⟩
    have hfalse : (t.id == tid) = false := by
      simp only [beq_eq_false_iff_ne, ne_eq, hid]
      exact hne
    simp [hfalse]
  · exact hB.filter _

end TaskPool

namespace TaskPool

lemma leaseInv_step {cfg : Config} {s s' : PoolState}
    (hs : Step cfg s s') (hI : LeaseInv s) : LeaseInv s' := by
  obtain ⟨hD, hE, hA, hB⟩ := hI
  cases hs with
  | submit payload priority s2 tid h =>
    obtain ⟨_, rfl, _⟩ := submit_ok_inv h
    refine ⟨?_, ?_, ?_, hB⟩
    · rw [List.pairwise_append]
      refine ⟨hD, by simp, ?_⟩
      intro a ha b hb
      rcases List.mem_singleton.mp hb with rfl
      exact Nat.ne_of_lt (hE a ha)
    · intro t ht
      rcases List.mem_append.mp ht with ht' | ht'
      · exact Nat.lt_succ_of_lt (hE t ht')
      · rcases List.mem_singleton.mp ht' with rfl
        exact Nat.lt_succ_self _
    · intro l hl
      rcases hA l hl with ⟨t, ht, hid, hst⟩
      exact ⟨t, List.mem_append_left _ ht, hid, hst⟩
  | acquire tid nid ttl s2 tok h =>
    obtain ⟨t, hf, hp, rfl⟩ := acquire_ok_inv h
    have htmem : t ∈ s.tasks := List.mem_of_find?_eq_some hf
    have htid : t.id = tid := by
      have := List.find?_some hf
      simpa using this
    have hnolease : ∀ l ∈ s.leases, l.task_id ≠ tid := by
      intro l hl hcontra
      rcases hA l hl with ⟨t', ht', hid', hst'⟩
      have heq : t' = t := eq_of_pairwise_ne_id hD ht' htmem (by rw [hid', hcontra, htid])
      rw [heq] at hst'
      rw [hst'] at hp
      cases hp
    refine ⟨?_, ?_, ?_, ?_⟩
    · exact pairwise_ne_id_map _ (acquire_update_id tid) hD
    · intro u hu
      rcases List.mem_map.mp hu with ⟨v, hv, rfl⟩
      rw [acquire_update_id tid v]
      exact hE v hv
    · intro l hl
      rcases List.mem_append.mp hl with hl' | hl'
      · rcases hA l hl' with ⟨t', ht', hid', hst'⟩
        refine ⟨t', List.mem_map.mpr ⟨t', ht', ?_⟩, hid', hst'⟩
        have hfalse : (t'.state == TaskState.Pending) = false := by
          rw [hst']
          rfl
        simp [hfalse]
      · rcases List.mem_singleton.mp hl' with rfl
        refine ⟨{ t with state := TaskState.Leased, attempt_count := t.attempt_count + 1 },
                List.mem_map.mpr ⟨t, htmem, ?_⟩, htid, rfl⟩
        have h1 : (t.id == tid) = true := by simp [htid]
        have h2 : (t.state == TaskState.Pending) = true := by simp [hp]
        simp [h1, h2]
    · rw [List.pairwise_append]
      refine ⟨hB, by simp, ?_⟩
      intro a ha b hb
      rcases List.mem_singleton.mp hb with rfl
      exact hnolease a ha
  | renew token ttl s2 h =>
    obtain ⟨l, hf, rfl⟩ := renew_ok_inv h
    refine ⟨hD, hE, ?_, ?_⟩
    · intro m hm
      rcases List.mem_map.mp hm with ⟨m', hm', rfl⟩
      rcases hA m' hm' with ⟨t, ht, hid, hst⟩
      exact ⟨t, ht, by rw [renew_update_task_id token (s.now + ttl) m', hid], hst⟩
    · rw [List.pairwise_map]
      refine hB.imp ?_
      intro a b hab
      rw [renew_update_task_id token (s.now + ttl) a,
          renew_update_task_id token (s.now + ttl) b]
      exact hab
  | submitResult token outcome =>
    rcases submitResult_state_cases cfg s token outcome with heq | ⟨l, hlmem, heq | heq⟩
    · rw [heq]; exact ⟨hD, hE, hA, hB⟩
    · rw [heq]
      refine ⟨?_, ?_, ?_, hB.filter _⟩
      · exact pairwise_ne_id_map _ (complete_update_id l.task_id) hD
      · intro u hu
        rcases List.mem_map.mp hu with ⟨v, hv, rfl⟩
        rw [complete_update_id l.task_id v]
        exact hE v hv
      · intro m hm
        have hm' := List.mem_filter.mp hm
        have hne : m.task_id ≠ l.task_id := by simpa using hm'.2
        rcases hA m hm'.1 with ⟨t, ht, hid, hst⟩
        refine ⟨t, List.mem_map.mpr ⟨t, ht, ?_⟩, hid, hst⟩
        have hfalse : (t.id == l.task_id) = false := by
          simp only [beq_eq_false_iff_ne, ne_eq, hid]
          exact hne
        simp [hfalse]
    · rw [heq]
      exact leaseInv_requeueOrAbandon ⟨hD, hE, hA, hB⟩
  | sweep l hmem hexp =>
    exact leaseInv_requeueOrAbandon ⟨hD, hE, hA, hB⟩
  | tick dt =>
    exact ⟨hD, hE, hA, hB⟩

lemma leaseInv_reachable {cfg : Config} {s : PoolState}
    (h : Reachable cfg s) : LeaseInv s := by
  induction h with
  | refl => exact leaseInv_init
  | tail _ hstep ih => exact leaseInv_step hstep ih

end TaskPool

namespace TaskPool

/-! ### The attempt-count invariant and terminal states -/

/-- The inductive invariant backing the retry bound: every task's
`attempt_count` is at most the configured maximum, and a Pending task has
strictly fewer attempts than the maximum (so one more acquisition cannot
overshoot). -/
def AttemptInv (cfg : Config) (s : PoolState) : Prop :=
  ∀ t ∈ s.tasks, t.attempt_count ≤ cfg.maxAttempts ∧
    (t.state = TaskState.Pending → t.attempt_count < cfg.maxAttempts)

lemma attemptInv_init (cfg : Config) : AttemptInv cfg initState := by
  intro t ht
  cases ht

lemma attemptInv_requeueOrAbandon {cfg : Config} {s : PoolState} {tid : Nat}
    (hI : AttemptInv cfg s) : AttemptInv cfg (requeueOrAbandon cfg s tid) := by
  intro t ht
  rcases List.mem_map.mp ht with ⟨u, hu, rfl⟩
  obtain ⟨h1, h2⟩ := hI u hu
  by_cases hg : (u.id == tid && u.state == TaskState.Leased) = true
  · simp only [hg, if_true]
    by_cases hc : u.attempt_count < cfg.maxAttempts
    · simp only [if_pos hc]
      exact ⟨h1, fun _ => hc⟩
    · simp only [if_neg hc]
      exact ⟨h1, fun hcon => TaskState.noConfusion hcon⟩
  · rw [Bool.not_eq_true] at hg
    simp only [hg, Bool.false_eq_true, if_false]
    exact ⟨h1, h2⟩

lemma attemptInv_step {cfg : Config} {s s' : PoolState}
    (hmax : 1 ≤ cfg.maxAttempts) (hs : Step cfg s s')
    (hI : AttemptInv cfg s) : AttemptInv cfg s' := by
  cases hs with
  | submit payload priority s2 tid h =>
    obtain ⟨_, rfl, _⟩ := submit_ok_inv h
    intro t ht
    rcases List.mem_append.mp ht with ht' | ht'
    · exact hI t ht'
    · rcases List.mem_singleton.mp ht' with rfl
      exact ⟨Nat.zero_le _, fun _ => hmax⟩
  | acquire tid nid ttl s2 tok h =>
    obtain ⟨u0, hf, hp, rfl⟩ := acquire_ok_inv h
    intro t ht
    rcases List.mem_map.mp ht with ⟨u, hu, rfl⟩
    obtain ⟨h1, h2⟩ := hI u hu
    by_cases hg : (u.id == tid && u.state == TaskState.Pending) = true
    · have hup : u.state = TaskState.Pending := by
        have := (Bool.and_eq_true _ _).mp hg
        exact beq_iff_eq.mp this.2
      simp only [hg, if_true]
      exact ⟨Nat.succ_le_of_lt (h2 hup), fun hcon => TaskState.noConfusion hcon⟩
    · rw [Bool.not_eq_true] at hg
      simp only [hg, Bool.false_eq_true, if_false]
      exact ⟨h1, h2⟩
  | renew token ttl s2 h =>
    obtain ⟨l, hf, rfl⟩ := renew_ok_inv h
    exact hI
  | submitResult token outcome =>
    rcases submitResult_state_cases cfg s token outcome with heq | ⟨l, hlmem, heq | heq⟩
    · rw [heq]; exact hI
    · rw [heq]
      intro t ht
      rcases List.mem_map.mp ht with ⟨u, hu, rfl⟩
      obtain ⟨h1, h2⟩ := hI u hu
      by_cases hg : (u.id == l.task_id && u.state == TaskState.Leased) = true
      · simp only [hg, if_true]
        exact ⟨h1, fun hcon => TaskState.noConfusion hcon⟩
      · rw [Bool.not_eq_true] at hg
        simp only [hg, Bool.false_eq_true, if_false]
        exact ⟨h1, h2⟩
    · rw [heq]
      exact attemptInv_requeueOrAbandon hI
  | sweep l hmem hexp =>
    exact attemptInv_requeueOrAbandon hI
  | tick dt =>
    exact hI

lemma attemptInv_reachable {cfg : Config} {s : PoolState}
    (hmax : 1 ≤ cfg.maxAttempts) (h : Reachable cfg s) : AttemptInv cfg s := by
  induction h with
  | refl => exact attemptInv_init cfg
  | tail _ hstep ih => exact attemptInv_step hmax hstep ih

lemma terminal_mem_of_step {cfg : Config} {s s' : PoolState} (hs : Step cfg s s')
    {t : Task} (ht : t ∈ s.tasks)
    (hterm : t.state = TaskState.Completed ∨ t.state = TaskState.Abandoned) :
    t ∈ s'.tasks := by
  have hnl : (t.state == TaskState.Leased) = false := by
    rcases hterm with h | h <;> rw [h] <;> rfl
  have hnp : (t.state == TaskState.Pending) = false := by
    rcases hterm with h | h <;> rw [h] <;> rfl
  cases hs with
  | submit payload priority s2 tid h =>
    obtain ⟨_, rfl, _⟩ := submit_ok_inv h
    exact List.mem_append_left _ ht
  | acquire tid nid ttl s2 tok h =>
    obtain ⟨u, hf, hp, rfl⟩ := acquire_ok_inv h
    exact List.mem_map.mpr ⟨t, ht, by simp [hnp]⟩
  | renew token ttl s2 h =>
    obtain ⟨l, hf, rfl⟩ := renew_ok_inv h
    exact ht
  | submitResult token outcome =>
    rcases submitResult_state_cases cfg s token outcome with heq | ⟨l, hlmem, heq | heq⟩
    · rw [heq]; exact ht
    · rw [heq]
      exact List.mem_map.mpr ⟨t, ht, by simp [hnl]⟩
    · rw [heq]
      exact List.mem_map.mpr ⟨t, ht, by simp [hnl]⟩
  | sweep l hmem hexp =>
    exact List.mem_map.mpr ⟨t, ht, by simp [hnl]⟩
  | tick dt =>
    exact ht

end TaskPool

namespace TaskPool

/-! ### Concrete example run: submit one task, acquire it -/

def exCfg : Config := { capacity := 2, maxAttempts := 3 }

def exS1 : PoolState :=
  { tasks := [{ id := 0, payload_ref := 7, priority := 5, state := .Pending,
                attempt_count := 0, created_at := 0 }],
    leases := [], now := 0, nextId := 1, nextToken := 0 }

def exS2 : PoolState :=
  { tasks := [{ id := 0, payload_ref := 7, priority := 5, state := .Leased,
                attempt_count := 1, created_at := 0 }],
    leases := [{ task_id := 0, node_id := 42, issued_at := 0, expires_at := 10,
                 token := 0 }],
    now := 0, nextId := 1, nextToken := 1 }

lemma exS1_step : Step exCfg initState exS1 :=
  Step.submit initState 7 5 exS1 0 rfl

lemma exS2_step : Step exCfg exS1 exS2 :=
  Step.acquire exS1 0 42 10 exS2 0 rfl

lemma exReach2 : Reachable exCfg exS2 :=
  Relation.ReflTransGen.tail (Relation.ReflTransGen.single exS1_step) exS2_step

/-! ### Claim theorems on the Task Pool core -/

/-- C1: in every reachable state of the Task Pool core, no two recorded
leases belong to the same task, so every task has at most one lease — in
particular at most one live lease — and this holds over every interleaving of
the atomic `acquire`, release/result-submission and expiry-sweep transitions,
since a reachable state is exactly the end of such an interleaving. -/
theorem at_most_one_lease_per_task (cfg : Config) (s : PoolState)
    (h : Reachable cfg s) :
    s.leases.Pairwise fun a b => a.task_id ≠ b.task_id :=
  (leaseInv_reachable h).2.2.2

theorem at_most_one_lease_per_task_witness :
    Reachable exCfg exS2 ∧
      (exS2.leases.Pairwise fun a b => a.task_id ≠ b.task_id) :=
  ⟨exReach2, at_most_one_lease_per_task exCfg exS2 exReach2⟩

/-- C5: in every reachable state (with a positive configured maximum), no
task's `attempt_count` exceeds the maximum; a Leased task subjected to the
expiry/failure path returns to Pending when `attempt_count < max` and becomes
Abandoned when `attempt_count ≥ max`; and Completed and Abandoned tasks are
left untouched by every further transition. -/
theorem attempts_bounded_and_terminal (cfg : Config) (s : PoolState)
    (hmax : 1 ≤ cfg.maxAttempts) (h : Reachable cfg s) :
    (∀ t ∈ s.tasks, t.attempt_count ≤ cfg.maxAttempts) ∧
    (∀ t ∈ s.tasks, t.state = TaskState.Leased →
      ({ t with state := if t.attempt_count < cfg.maxAttempts then TaskState.Pending
                         else TaskState.Abandoned } : Task)
        ∈ (requeueOrAbandon cfg s t.id).tasks) ∧
    (∀ s', Step cfg s s' → ∀ t ∈ s.tasks,
      t.state = TaskState.Completed ∨ t.state = TaskState.Abandoned →
        t ∈ s'.tasks) := by
  refine ⟨fun t ht => (attemptInv_reachable hmax h t ht).1, ?_, ?_⟩
  · intro t ht hL
    refine List.mem_map.mpr ⟨t, ht, ?_⟩
    have h1 : (t.id == t.id) = true := beq_self_eq_true _
    have h2 : (t.state == TaskState.Leased) = true := by rw [hL]; rfl
    by_cases hc : t.attempt_count < cfg.maxAttempts
    · simp [h1, h2, hc]
    · simp [h1, h2, hc]
  · intro s' hs t ht hterm
    exact terminal_mem_of_step hs ht hterm

theorem attempts_bounded_and_terminal_witness :
    (1 ≤ exCfg.maxAttempts ∧ Reachable exCfg exS2) ∧
    ((∀ t ∈ exS2.tasks, t.attempt_count ≤ exCfg.maxAttempts) ∧
     (∀ t ∈ exS2.tasks, t.state = TaskState.Leased →
       ({ t with state := if t.attempt_count < exCfg.maxAttempts then TaskState.Pending
                          else TaskState.Abandoned } : Task)
         ∈ (requeueOrAbandon exCfg exS2 t.id).tasks) ∧
     (∀ s', Step exCfg exS2 s' → ∀ t ∈ exS2.tasks,
       t.state = TaskState.Completed ∨ t.state = TaskState.Abandoned →
         t ∈ s'.tasks)) :=
  ⟨⟨by decide, exReach2⟩,
   attempts_bounded_and_terminal exCfg exS2 (by decide) exReach2⟩

end TaskPool

namespace TaskPool

/-! ### C4: stale and duplicate result submissions are no-ops -/

/-- C4: when a submitted result's `lease_token` matches no live lease — the
token is unknown, or every matching recorded lease is expired or its task is
no longer Leased (superseded/duplicate) — `submit_result` leaves the whole
task/lease state unchanged and acknowledges with `AlreadyFinalized`. -/
theorem stale_result_is_noop (cfg : Config) (s : PoolState) (token : Nat)
    (outcome : Outcome)
    (h : ∀ l ∈ s.leases, l.token = token → isLive s l = false) :
    submitResult cfg s token outcome = (s, Ack.AlreadyFinalized) := by
  unfold submitResult
  cases hf : s.leases.find? (fun l => l.token == token) with
  | none => rfl
  | some l =>
    have hmem := List.mem_of_find?_eq_some hf
    have hp := List.find?_some hf
    have hdead : isLive s l = false := h l hmem (by simpa using hp)
    simp [hdead]

def exStale : PoolState :=
  { tasks := [{ id := 0, payload_ref := 7, priority := 5, state := .Leased,
                attempt_count := 1, created_at := 0 }],
    leases := [{ task_id := 0, node_id := 42, issued_at := 0, expires_at := 10,
                 token := 0 }],
    now := 20, nextId := 1, nextToken := 1 }

theorem stale_result_is_noop_witness :
    (∀ l ∈ exStale.leases, l.token = 0 → isLive exStale l = false) ∧
    submitResult exCfg exStale 0 (.success 3) = (exStale, Ack.AlreadyFinalized) :=
  ⟨by decide, stale_result_is_noop exCfg exStale 0 (.success 3) (by decide)⟩

/-! ### Depth-counting helpers for C6 -/

lemma filter_length_map_le (p : Task → Bool) (f : Task → Task)
    (hf : ∀ t, p (f t) = true → p t = true) :
    ∀ l : List Task, ((l.map f).filter p).length ≤ (l.filter p).length := by
  intro l
  induction l with
  | nil => simp
  | cons a l ih =>
    by_cases h1 : p (f a) = true
    · have h2 := hf a h1
      simp only [List.map_cons, List.filter_cons, h1, h2, if_true, List.length_cons]
      exact Nat.succ_le_succ ih
    · rw [Bool.not_eq_true] at h1
      by_cases h2 : p a = true
      · simp only [List.map_cons, List.filter_cons, h1, h2, Bool.false_eq_true,
                   if_false, if_true, List.length_cons]
        exact Nat.le_succ_of_le ih
      · rw [Bool.not_eq_true] at h2
        simp only [List.map_cons, List.filter_cons, h1, h2, Bool.false_eq_true,
                   if_false]
        exact ih

lemma filter_length_map_lt (p : Task → Bool) (f : Task → Task)
    (hf : ∀ t, p (f t) = true → p t = true)
    {l : List Task} {w : Task} (hw : w ∈ l) (hwp : p w = true)
    (hwf : p (f w) = false) :
    ((l.map f).filter p).length < (l.filter p).length := by
  induction l with
  | nil => cases hw
  | cons a l ih =>
    rcases List.mem_cons.mp hw with rfl | hw'
    · simp only [List.map_cons, List.filter_cons, hwf, hwp, Bool.false_eq_true,
                 if_false, if_true, List.length_cons]
      exact Nat.lt_succ_of_le (filter_length_map_le p f hf l)
    · by_cases h1 : p (f a) = true
      · have h2 := hf a h1
        simp only [List.map_cons, List.filter_cons, h1, h2, if_true,
                   List.length_cons]
        exact Nat.succ_lt_succ (ih hw')
      · rw [Bool.not_eq_true] at h1
        by_cases h2 : p a = true
        · simp only [List.map_cons, List.filter_cons, h1, h2, Bool.false_eq_true,
                     if_false, if_true, List.length_cons]
          exact Nat.lt_succ_of_lt (ih hw')
        · rw [Bool.not_eq_true] at h2
          simp only [List.map_cons, List.filter_cons, h1, h2, Bool.false_eq_true,
                     if_false]
          exact ih hw'

end TaskPool

namespace TaskPool

/-! ### C6: backpressure at capacity, and a completed task frees a slot -/

lemma submit_ok_of_lt {cfg : Config} {s : PoolState} (payload priority : Nat)
    (h : queueDepth s < cfg.capacity) :
    submit cfg s payload priority =
      .ok ({ s with
              tasks := s.tasks ++ [{ id := s.nextId, payload_ref := payload,
                                     priority := priority, state := .Pending,
                                     attempt_count := 0, created_at := s.now }],
              nextId := s.nextId + 1 },
           s.nextId) := by
  unfold submit
  rw [if_neg (Nat.not_le.mpr h)]

/-- C6: with the queue at the configured capacity, the next `submit` fails
with `QueueFull` and creates no task; and after one queued task completes (a
success result against its live lease), the next `submit` succeeds and
creates a Pending task. -/
theorem queue_full_then_slot_frees (cfg : Config) (s : PoolState)
    (payload priority token out : Nat) (l : Lease)
    (hdepth : queueDepth s = cfg.capacity)
    (hfind : s.leases.find? (fun m => m.token == token) = some l)
    (hlive : isLive s l = true) :
    submit cfg s payload priority = .error .QueueFull ∧
    ∃ s2 tid, submit cfg (submitResult cfg s token (.success out)).1 payload priority
        = .ok (s2, tid) ∧
      ({ id := tid, payload_ref := payload, priority := priority,
         state := TaskState.Pending, attempt_count := 0,
         created_at := s.now } : Task) ∈ s2.tasks := by
  have hfirst : submit cfg s payload priority = .error .QueueFull := by
    unfold submit
    rw [if_pos (le_of_eq hdepth.symm)]
  refine ⟨hfirst, ?_⟩
  -- the live lease's task is Leased
  have hlive' := hlive
  unfold isLive at hlive'
  have hand := (Bool.and_eq_true _ _).mp hlive'
  have hmatch := hand.2
  cases hft : findTask s l.task_id with
  | none => rw [hft] at hmatch; cases hmatch
  | some w =>
    rw [hft] at hmatch
    have hwL : w.state = TaskState.Leased := beq_iff_eq.mp hmatch
    have hwmem : w ∈ s.tasks := List.mem_of_find?_eq_some hft
    have hwid := List.find?_some hft
    have hwid' : (w.id == l.task_id) = true := by simpa using hwid
    -- the state after completing the task
    rw [submitResult_success_eq out hfind hlive]
    -- depth strictly decreases
    have hlt : queueDepth
        { s with
          tasks := s.tasks.map fun u =>
            if u.id == l.task_id && u.state == TaskState.Leased then
              { u with state := TaskState.Completed }
            else u,
          leases := s.leases.filter fun m => !(m.task_id == l.task_id) }
        < cfg.capacity := by
      rw [← hdepth]
      unfold queueDepth
      apply filter_length_map_lt
        (fun t => t.state == TaskState.Pending || t.state == TaskState.Leased)
        (fun u =>
          if u.id == l.task_id && u.state == TaskState.Leased then
            { u with state := TaskState.Completed }
          else u)
      · intro t h
        by_cases hg : (t.id == l.task_id && t.state == TaskState.Leased) = true
        · rw [if_pos hg] at h
          cases h
        · rw [Bool.not_eq_true] at hg
          rw [hg] at h
          simpa using h
      · exact hwmem
      · rw [hwL]; rfl
      · have hg : (w.id == l.task_id && w.state == TaskState.Leased) = true := by
          rw [Bool.and_eq_true]
          exact ⟨hwid', by rw [hwL]; rfl⟩
        rw [if_pos hg]
        rfl
    -- the next submit succeeds
    exact ⟨_, _, submit_ok_of_lt payload priority hlt,
           List.mem_append_right _ (List.mem_singleton.mpr rfl)⟩

end TaskPool

namespace TaskPool

def exFull : PoolState :=
  { tasks := [{ id := 0, payload_ref := 7, priority := 5, state := .Leased,
                attempt_count := 1, created_at := 0 },
              { id := 1, payload_ref := 8, priority := 4, state := .Pending,
                attempt_count := 0, created_at := 0 }],
    leases := [{ task_id := 0, node_id := 42, issued_at := 0, expires_at := 10,
                 token := 0 }],
    now := 0, nextId := 2, nextToken := 1 }

theorem queue_full_then_slot_frees_witness :
    (queueDepth exFull = exCfg.capacity ∧
     exFull.leases.find? (fun m => m.token == 0) =
       some { task_id := 0, node_id := 42, issued_at := 0, expires_at := 10,
              token := 0 } ∧
     isLive exFull { task_id := 0, node_id := 42, issued_at := 0,
                     expires_at := 10, token := 0 } = true) ∧
    (submit exCfg exFull 9 1 = .error .QueueFull ∧
     ∃ s2 tid, submit exCfg (submitResult exCfg exFull 0 (.success 11)).1 9 1
         = .ok (s2, tid) ∧
       ({ id := tid, payload_ref := 9, priority := 1,
          state := TaskState.Pending, attempt_count := 0,
          created_at := exFull.now } : Task) ∈ s2.tasks) :=
  ⟨⟨by decide, rfl, by decide⟩,
   queue_full_then_slot_frees exCfg exFull 9 1 0 11
     { task_id := 0, node_id := 42, issued_at := 0, expires_at := 10, token := 0 }
     (by decide) rfl (by decide)⟩

/-! ### C7: peek_next selection order -/

/-- The selection preorder as a proposition: `a` is preferred over `b`. -/
def PrefOverP (a b : Task) : Prop :=
  b.priority < a.priority ∨ (a.priority = b.priority ∧ a.created_at ≤ b.created_at)

lemma prefOver_iff (a b : Task) : prefOver a b = true ↔ PrefOverP a b := by
  simp [prefOver, PrefOverP]

lemma prefOverP_refl (a : Task) : PrefOverP a a :=
  Or.inr ⟨rfl, le_refl _⟩

lemma prefOverP_of_not {a b : Task} (h : ¬ PrefOverP a b) : PrefOverP b a := by
  unfold PrefOverP at *
  omega

lemma prefOverP_trans {a b c : Task} (h1 : PrefOverP a b) (h2 : PrefOverP b c) :
    PrefOverP a c := by
  unfold PrefOverP at *
  omega

/-- The accumulator scan underlying `peekNext`. -/
def pickBest (t : Task) (ts : List Task) : Task :=
  ts.foldl (fun acc u => if prefOver acc u then acc else u) t

lemma peekNext_eq (s : PoolState) :
    peekNext s = match s.tasks.filter (fun t => t.state == TaskState.Pending) with
      | [] => none
      | t :: ts => some (pickBest t ts).id := rfl

lemma pickBest_spec (ts : List Task) : ∀ t : Task,
    (pickBest t ts = t ∨ pickBest t ts ∈ ts) ∧
    PrefOverP (pickBest t ts) t ∧
    ∀ u ∈ ts, PrefOverP (pickBest t ts) u := by
  induction ts with
  | nil =>
    intro t
    exact ⟨Or.inl rfl, prefOverP_refl t, fun u hu => absurd hu (List.not_mem_nil u)⟩
  | cons a ts ih =>
    intro t
    by_cases hta : prefOver t a = true
    · have hta' : PrefOverP t a := (prefOver_iff t a).mp hta
      have hstep : pickBest t (a :: ts) = pickBest t ts := by
        unfold pickBest
        rw [List.foldl_cons, if_pos hta]
      obtain ⟨hmem, hpt, hall⟩ := ih t
      rw [hstep]
      refine ⟨?_, hpt, ?_⟩
      · rcases hmem with h | h
        · exact Or.inl h
        · exact Or.inr (List.mem_cons_of_mem a h)
      · intro u hu
        rcases List.mem_cons.mp hu with rfl | hu'
        · exact prefOverP_trans hpt hta'
        · exact hall u hu'
    · have hat : PrefOverP a t :=
        prefOverP_of_not fun hc => hta ((prefOver_iff t a).mpr hc)
      have hstep : pickBest t (a :: ts) = pickBest a ts := by
        unfold pickBest
        rw [List.foldl_cons, if_neg (by simpa using hta)]
      obtain ⟨hmem, hpa, hall⟩ := ih a
      rw [hstep]
      refine ⟨?_, prefOverP_trans hpa hat, ?_⟩
      · rcases hmem with h | h
        · exact Or.inr (by rw [h]; exact List.mem_cons_self a ts)
        · exact Or.inr (List.mem_cons_of_mem a h)
      · intro u hu
        rcases List.mem_cons.mp hu with rfl | hu'
        · exact hpa
        · exact hall u hu'

/-- C7: `peek_next` returns `none` exactly when no Pending task exists (it
never blocks), and whenever it returns a task id, that task is Pending and is
preferred over every Pending task: strictly higher priority, or equal
priority with an earliest-or-equal `created_at` (FIFO within the band). -/
theorem peek_next_selects_best (s : PoolState) :
    (peekNext s = none ↔ ∀ t ∈ s.tasks, t.state ≠ TaskState.Pending) ∧
    (∀ tid, peekNext s = some tid →
      ∃ t ∈ s.tasks, t.id = tid ∧ t.state = TaskState.Pending ∧
        ∀ u ∈ s.tasks, u.state = TaskState.Pending →
          u.priority < t.priority ∨
            (u.priority = t.priority ∧ t.created_at ≤ u.created_at)) := by
  constructor
  · rw [peekNext_eq]
    cases hfl : s.tasks.filter (fun t => t.state == TaskState.Pending) with
    | nil =>
      constructor
      · intro _ t ht hp
        have hmem : t ∈ s.tasks.filter (fun t => t.state == TaskState.Pending) :=
          List.mem_filter.mpr ⟨ht, by simp [hp]⟩
        rw [hfl] at hmem
        cases hmem
      · intro _
        rfl
    | cons a as =>
      constructor
      · intro hc
        cases hc
      · intro hall
        exfalso
        have ha : a ∈ s.tasks.filter (fun t => t.state == TaskState.Pending) := by
          rw [hfl]
          exact List.mem_cons_self a as
        have ha' := List.mem_filter.mp ha
        exact hall a ha'.1 (by simpa using ha'.2)
  · intro tid htid
    rw [peekNext_eq] at htid
    cases hfl : s.tasks.filter (fun t => t.state == TaskState.Pending) with
    | nil => rw [hfl] at htid; cases htid
    | cons a ts =>
      rw [hfl] at htid
      have htid' : (pickBest a ts).id = tid := by
        injection htid
      obtain ⟨hmem, hpa, hall⟩ := pickBest_spec ts a
      have hrmem : pickBest a ts ∈ a :: ts := by
        rcases hmem with h | h
        · rw [h]; exact List.mem_cons_self a ts
        · exact List.mem_cons_of_mem a h
      have hrfil : pickBest a ts ∈
          s.tasks.filter (fun t => t.state == TaskState.Pending) := by
        rw [hfl]; exact hrmem
      have hr := List.mem_filter.mp hrfil
      refine ⟨pickBest a ts, hr.1, htid', by simpa using hr.2, ?_⟩
      intro u hu hup
      have hufil : u ∈ s.tasks.filter (fun t => t.state == TaskState.Pending) :=
        List.mem_filter.mpr ⟨hu, by simp [hup]⟩
      rw [hfl] at hufil
      have hpref : PrefOverP (pickBest a ts) u := by
        rcases List.mem_cons.mp hufil with rfl | hu'
        · exact hpa
        · exact hall u hu'
      rcases hpref with h | ⟨h1, h2⟩
      · exact Or.inl h
      · exact Or.inr ⟨h1.symm, h2⟩

theorem peek_next_selects_best_witness :
    peekNext exFull = some 1 ∧
    (∃ t ∈ exFull.tasks, t.id = 1 ∧ t.state = TaskState.Pending ∧
      ∀ u ∈ exFull.tasks, u.state = TaskState.Pending →
        u.priority < t.priority ∨
          (u.priority = t.priority ∧ t.created_at ≤ u.created_at)) :=
  ⟨rfl, (peek_next_selects_best exFull).2 1 rfl⟩

end TaskPool

namespace Web

/-! ### Claim theorems on the shipped web code -/

lemma oneGet_map (net : Net) (req : GetReq) :
    (match net req with
      | .ok r => Except.ok r.data
      | .error e => Except.error e) = Except.map AxiosResponse.data (net req) := by
  cases net req <;> rfl

/-- C2: each `ApiClient` method issues exactly one GET, to its documented
path with its documented query parameters (optional arguments defaulted as in
the source), returns the upstream response body (`response.data`) unchanged
on success, and rethrows the upstream error unchanged on failure; no other
request or computation occurs. -/
theorem apiClient_single_get_passthrough (net : Net) (query page limit id : JSValue) :
    (searchPapers net query page limit).1 =
        [{ path := "/papers/search",
           params := [("query", query), ("page", jsDefault page (.num 1)),
                      ("limit", jsDefault limit (.num 10))] }] ∧
    (searchPapers net query page limit).2 =
        Except.map AxiosResponse.data
          (net { path := "/papers/search",
                 params := [("query", query), ("page", jsDefault page (.num 1)),
                            ("limit", jsDefault limit (.num 10))] }) ∧
    (getLatestPapers net limit).1 =
        [{ path := "/papers/latest",
           params := [("limit", jsDefault limit (.num 10))] }] ∧
    (getLatestPapers net limit).2 =
        Except.map AxiosResponse.data
          (net { path := "/papers/latest",
                 params := [("limit", jsDefault limit (.num 10))] }) ∧
    (getNodes net).1 = [{ path := "/nodes", params := [] }] ∧
    (getNodes net).2 =
        Except.map AxiosResponse.data (net { path := "/nodes", params := [] }) ∧
    (getStats net).1 = [{ path := "/stats", params := [] }] ∧
    (getStats net).2 =
        Except.map AxiosResponse.data (net { path := "/stats", params := [] }) ∧
    (getPaperById net id).1 =
        [{ path := "/papers/" ++ jsToString id, params := [] }] ∧
    (getPaperById net id).2 =
        Except.map AxiosResponse.data
          (net { path := "/papers/" ++ jsToString id, params := [] }) := by
  exact ⟨rfl, oneGet_map net _, rfl, oneGet_map net _, rfl, oneGet_map net _,
         rfl, oneGet_map net _, rfl, oneGet_map net _⟩

/-- C3: the `/api/nodes` and `/api/stats` handlers forward the upstream value
unchanged (status 200) on success; when the upstream call throws they answer
HTTP 500 with a JSON object whose only field is `error`. -/
theorem nodes_stats_handlers_spec (v : Json) (e : JSError) :
    nodesHandler (.ok v) = .json 200 v ∧
    nodesHandler (.error e) =
      .json 500 (.obj [("error", .str ("Failed to fetch nodes"))]) ∧
    statsHandler (.ok v) = .json 200 v ∧
    statsHandler (.error e) =
      .json 500 (.obj [("error", .str ("Failed to fetch stats"))]) :=
  ⟨rfl, rfl, rfl, rfl⟩

/-- C8: the `POST /api/downloads/track` handler always answers HTTP 500 with
`{ error: "Failed to track download" }` and never `{ success: true }`: the
`ApiClient` class defines no `trackDownload` method, so the call in the
handler's `try` block always throws. -/
theorem downloads_track_always_fails (net : Net) (body : String → JSValue) :
    downloadsTrackRoute net body =
      .json 500 (.obj [("error", .str ("Failed to track download"))]) ∧
    downloadsTrackRoute net body ≠
      .json 200 (.obj [("success", .bool true)]) := by
  have hnone : apiClientLookup ("trackDownload") = none := by
    simp [apiClientLookup]
  constructor
  · unfold downloadsTrackRoute
    rw [hnone]
  · unfold downloadsTrackRoute
    rw [hnone]
    intro hcon
    simp at hcon

/-- C9: the dashboard handler always renders the dashboard view and never
surfaces an error status: on upstream success it renders the fetched nodes
and stats, and when either upstream call throws it renders `nodes: []`, the
zeroed stats object, the identical `defaultNode`, and an error message. -/
theorem dashboard_always_renders (now : Nat) (nodes stats : Json) (e : JSError)
    (nr sr : Except JSError Json) :
    dashboardRoute now (.ok nodes) (.ok stats) =
      .render ("dashboard") ("Dashboard - Sci16z") nodes stats (mkDefaultNode now)
        none ∧
    dashboardRoute now (.error e) sr =
      .render ("dashboard") ("Dashboard - Sci16z") (.arr [])
        (.obj [("activeNodes", .num 1), ("papersProcessed", .num 0),
               ("tokensEarned", .num 0)])
        (mkDefaultNode now) (some ("Failed to load dashboard data")) ∧
    dashboardRoute now nr (.error e) =
      .render ("dashboard") ("Dashboard - Sci16z") (.arr [])
        (.obj [("activeNodes", .num 1), ("papersProcessed", .num 0),
               ("tokensEarned", .num 0)])
        (mkDefaultNode now) (some ("Failed to load dashboard data")) ∧
    ∀ code body, dashboardRoute now nr sr ≠ .status code body := by
  refine ⟨rfl, ?_, ?_, ?_⟩
  · cases sr <;> rfl
  · cases nr <;> rfl
  · intro code body
    cases nr <;> cases sr <;> intro hcon <;> cases hcon

/-- C10: with the optional arguments omitted — the `/api/papers/latest` route
forwarding an absent `limit` query parameter, and the `/search` page route
passing no `limit` and a destructuring-defaulted `page` — `getLatestPapers`
requests the upstream with `limit = 10`, and `searchPapers` requests with
`page = 1` and `limit = 10`. -/
theorem omitted_args_default (net : Net) (query : String → JSValue) (q : JSValue)
    (hlimit : query ("limit") = .undefined) (hpage : query ("page") = .undefined) :
    (papersLatestRoute net query).1 =
      [{ path := "/papers/latest", params := [("limit", .num 10)] }] ∧
    (searchPageCall net query).1 =
      [{ path := "/papers/search",
         params := [("query", query ("q")), ("page", .num 1),
                    ("limit", .num 10)] }] ∧
    (getLatestPapers net .undefined).1 =
      [{ path := "/papers/latest", params := [("limit", .num 10)] }] ∧
    (searchPapers net q .undefined .undefined).1 =
      [{ path := "/papers/search",
         params := [("query", q), ("page", .num 1), ("limit", .num 10)] }] := by
  refine ⟨?_, ?_, ?_, ?_⟩ <;>
    simp [papersLatestRoute, searchPageCall, getLatestPapers, searchPapers,
          jsDefault, hlimit, hpage]

def exNet : Net := fun _ => .ok { status := 200, data := .null }

def exQueryEmpty : String → JSValue := fun _ => .undefined

theorem omitted_args_default_witness :
    (exQueryEmpty ("limit") = .undefined ∧ exQueryEmpty ("page") = .undefined) ∧
    ((papersLatestRoute exNet exQueryEmpty).1 =
        [{ path := "/papers/latest", params := [("limit", .num 10)] }] ∧
     (searchPageCall exNet exQueryEmpty).1 =
        [{ path := "/papers/search",
           params := [("query", exQueryEmpty ("q")), ("page", .num 1),
                      ("limit", .num 10)] }] ∧
     (getLatestPapers exNet .undefined).1 =
        [{ path := "/papers/latest", params := [("limit", .num 10)] }] ∧
     (searchPapers exNet (.str ("ml")) .undefined .undefined).1 =
        [{ path := "/papers/search",
           params := [("query", .str ("ml")), ("page", .num 1),
                      ("limit", .num 10)] }]) :=
  ⟨⟨rfl, rfl⟩, omitted_args_default exNet exQueryEmpty (.str ("ml")) rfl rfl⟩

end Web

namespace Web

theorem downloads_track_always_fails_witness :
    downloadsTrackRoute exNet (fun _ => JSValue.undefined) =
      .json 500 (.obj [("error", .str ("Failed to track download"))]) ∧
    downloadsTrackRoute exNet (fun _ => JSValue.undefined) ≠
      .json 200 (.obj [("success", .bool true)]) :=
  downloads_track_always_fails exNet (fun _ => JSValue.undefined)

theorem dashboard_always_renders_witness :
    dashboardRoute 3 (.ok (.arr [])) (.ok (.obj [])) =
      .render ("dashboard") ("Dashboard - Sci16z") (.arr []) (.obj [])
        (mkDefaultNode 3) none ∧
    dashboardRoute 3 (.error (.axiosError 500 ("down"))) (.ok (.obj [])) =
      .render ("dashboard") ("Dashboard - Sci16z") (.arr [])
        (.obj [("activeNodes", .num 1), ("papersProcessed", .num 0),
               ("tokensEarned", .num 0)])
        (mkDefaultNode 3) (some ("Failed to load dashboard data")) ∧
    dashboardRoute 3 (.ok (.arr [])) (.error (.axiosError 500 ("down"))) =
      .render ("dashboard") ("Dashboard - Sci16z") (.arr [])
        (.obj [("activeNodes", .num 1), ("papersProcessed", .num 0),
               ("tokensEarned", .num 0)])
        (mkDefaultNode 3) (some ("Failed to load dashboard data")) ∧
    ∀ code body, dashboardRoute 3 (.ok (.arr [])) (.ok (.obj [])) ≠
      .status code body :=
  dashboard_always_renders 3 (.arr []) (.obj []) (.axiosError 500 ("down"))
    (.ok (.arr [])) (.ok (.obj []))

end Web
